import Mathlib

/-!
Checker.go: batch file comparison with highlighted diffs

A shallow embedding of `Checker.go` and proofs about it.

* Go `string` values are modelled by `String`; `+=` on strings is `++`.
* Standard output is modelled by the `String` of everything printed so far.
* `fmt.Sprintf`/`fmt.Printf` calls are written out as the concatenation their
  format string denotes (`%s` pastes the argument, `%d` is `fmtInt`).
* The file system is a partial map from path to contents, and the diff
  routine `diffmatchpatch.DiffMain` is a parameter of the functions that call it.
* Standard input is an abstract state, and the two uses of `fmt.Scanln` (into
  a `string` and into an `int`) are parameters of the interactive loop.
* A Go `map[string]FileCompareResult` is an association list with distinct
  keys; ranging over it visits the entries in an arbitrary order, i.e. in any
  permutation of the association list.
-/

namespace Checker

/-! ## Data model -/

/-- `diffmatchpatch.Operation`: the tag of a diff segment. `DiffMain` produces
only these three values. -/
inductive Operation where
  | DiffDelete
  | DiffInsert
  | DiffEqual
  deriving DecidableEq, Repr

/-- `diffmatchpatch.Diff`: a tagged text fragment (the Go field `Type` is
written `Type_`). -/
structure Diff where
  Type_ : Operation
  Text : String
  deriving DecidableEq, Repr

/-- `FormattedOutput` (Checker.go:14-17). -/
structure FormattedOutput where
  reference : List String
  output : List String
  deriving DecidableEq, Repr

/-- `FileCompareResult` (Checker.go:20-24). -/
structure FileCompareResult where
  matched : Bool
  diffs : List Diff
  formattedOutput : FormattedOutput
  deriving DecidableEq, Repr

/-! ## `strings.Split` with a one-character separator -/

/-- The pieces of a character list between the occurrences of `sep`. -/
def splitChars (sep : Char) : List Char → List (List Char)
  | [] => [[]]
  | c :: cs =>
    if c = sep then [] :: splitChars sep cs
    else
      match splitChars sep cs with
      | [] => [[c]]
      | l :: ls => (c :: l) :: ls

/-- `strings.Split(s, sep)` for a separator of one character: the `n + 1`
substrings between the `n` occurrences of `sep` in `s`. -/
def Split (s : String) (sep : Char) : List String :=
  (splitChars sep s.data).map String.mk

/-! ## `generateFormattedOutput` (Checker.go:34-54) -/

/-- One iteration of the `for _, diff := range diffs` loop of
`generateFormattedOutput`, on the pair `(refText, outText)`. -/
def formatStep (acc : String × String) (diff : Diff) : String × String :=
  match diff.Type_ with
  | Operation.DiffInsert => (acc.1, acc.2 ++ ("\x1b[42m" ++ diff.Text ++ "\x1b[0m"))
  | Operation.DiffDelete => (acc.1 ++ ("\x1b[41m" ++ diff.Text ++ "\x1b[0m"), acc.2)
  | Operation.DiffEqual => (acc.1 ++ diff.Text, acc.2 ++ diff.Text)

/-- `generateFormattedOutput`: accumulate both column texts, then split each
on newlines. -/
def generateFormattedOutput (diffs : List Diff) : FormattedOutput :=
  let texts := diffs.foldl formatStep ("", "")
  { reference := Split texts.1 '\n', output := Split texts.2 '\n' }

/-! ## `showDifferences` (Checker.go:93-131) -/

/-- One iteration of the inline display loop (Checker.go:103-112): what is
printed for one segment. -/
def inlinePrint (diff : Diff) : String :=
  match diff.Type_ with
  | Operation.DiffInsert => "\x1b[32m" ++ diff.Text ++ "\x1b[0m"
  | Operation.DiffDelete => "\x1b[31m" ++ diff.Text ++ "\x1b[0m"
  | Operation.DiffEqual => diff.Text

/-- The loops of Checker.go:116-120 and 124-128: print every non-empty line
followed by a newline. -/
def printLines (lines : List String) : String :=
  lines.foldl (fun out line => if line ≠ "" then out ++ (line ++ "\n") else out) ""

/-- `showDifferences`: everything the call prints to standard output. -/
def showDifferences (fileName : String) (result : FileCompareResult)
    (displayType : Int) : String :=
  if result.matched then
    "\x1b[32mFile " ++ fileName ++ ": Files are identical\x1b[0m\n"
  else
    let header := "\x1b[31mFile " ++ fileName ++ ": Files are different\x1b[0m\n"
    let body :=
      if displayType = 1 then
        result.diffs.foldl (fun out diff => out ++ inlinePrint diff) ""
      else if displayType = 2 then
        "\nReference:\n" ++ "----------\n" ++ printLines result.formattedOutput.reference
          ++ "\nOutput:\n" ++ "-------\n" ++ printLines result.formattedOutput.output
      else ""
    header ++ body ++ "\n"

/-! ## `%d`: printing and scanning decimal integers -/

/-- The byte `'0' + d`. -/
def digitChar (d : Nat) : Char := Char.ofNat (48 + d)

/-- The digit loop of `fmt`'s integer formatting: peel decimal digits off `u`
from the least significant end, writing them in front of `acc`. The first
argument bounds the number of iterations. -/
def fmtDigits : Nat → Nat → List Char → List Char
  | 0, u, acc => digitChar (u % 10) :: acc
  | fuel + 1, u, acc =>
    if 10 ≤ u then fmtDigits fuel (u / 10) (digitChar (u % 10) :: acc)
    else digitChar u :: acc

/-- The verb `%d` of `fmt.Sprintf`/`fmt.Printf` on an `int`. -/
def fmtInt (i : Int) : String :=
  if i < 0 then "-" ++ String.mk (fmtDigits i.natAbs i.natAbs [])
  else String.mk (fmtDigits i.toNat i.toNat [])

/-- Value of a run of decimal digits, most significant first
(`strconv.ParseInt` in base 10 on an unsigned token). -/
def parseDec (tok : List Char) : Nat :=
  tok.foldl (fun n c => n * 10 + (c.toNat - 48)) 0

/-- White space of the `fmt` scanner (its `isSpace` table): U+0009 to U+000D,
U+0020, U+0085, U+00A0, U+1680, U+2000 to U+200A, U+2028, U+2029, U+202F,
U+205F and U+3000. -/
def isSpace (c : Char) : Bool :=
  (0x09 ≤ c.toNat && c.toNat ≤ 0x0d) || c.toNat == 0x20 || c.toNat == 0x85
    || c.toNat == 0xa0 || c.toNat == 0x1680 || (0x2000 ≤ c.toNat && c.toNat ≤ 0x200a)
    || c.toNat == 0x2028 || c.toNat == 0x2029 || c.toNat == 0x202f
    || c.toNat == 0x205f || c.toNat == 0x3000

/-- `SkipSpace` of the `fmt` scanner in `Sscanf`, where a newline is no white
space: drop white space up to the next other character; a newline met on the
way is the scan error `unexpected newline`, written `none`. -/
def skipSpace : List Char → Option (List Char)
  | [] => some []
  | c :: cs =>
    if c = '\n' then none
    else if isSpace c then skipSpace cs
    else some (c :: cs)

/-- The verb `%d` of `fmt.Sscanf` for an `int` destination: white space is
skipped, then an optional sign and the longest run of characters from
`0123456789` form the token, which `strconv.ParseInt(tok, 10, 64)` converts.
`none` stands for a scan error (newline or end of input before the number, no
digit, value outside the 64-bit range), which leaves the destination variable
untouched. -/
def scanInt (cs : List Char) : Option Int :=
  match skipSpace cs with
  | none => none
  | some cs1 =>
    let signed : Bool × List Char :=
      match cs1 with
      | '+' :: r => (false, r)
      | '-' :: r => (true, r)
      | _ => (false, cs1)
    let tok := signed.2.takeWhile Char.isDigit
    if tok = [] then none
    else
      let v : Int := if signed.1 then -(parseDec tok : Int) else (parseDec tok : Int)
      if -(2 : Int) ^ 63 ≤ v ∧ v < (2 : Int) ^ 63 then some v else none

/-- `fmt.Sprintf("data%d.out", i)` (Checker.go:61 and 236). -/
def dataFileName (i : Int) : String := "data" ++ fmtInt i ++ ".out"

/-- `fmt.Sscanf(fileName, "data%d.out", &fileNum)` (Checker.go:152): the value
of `fileNum` after the call. The input must start with the literal `data`;
the variable is assigned as soon as the integer has been scanned, whatever
follows it; when the literal or the integer does not match, it keeps its
previous value. -/
def sscanfDataOut (fileName : String) (fileNum : Int) : Int :=
  match fileName.data with
  | 'd' :: 'a' :: 't' :: 'a' :: rest => (scanInt rest).getD fileNum
  | _ => fileNum

/-! ## The result mapping -/

/-- A `map[string]FileCompareResult` listed by its entries. -/
abbrev ResultMap := List (String × FileCompareResult)

/-- The assignment `results[k] = v`: replace the entry under `k` if there is
one, add an entry otherwise. -/
def mapSet (m : ResultMap) (k : String) (v : FileCompareResult) : ResultMap :=
  match m with
  | [] => [(k, v)]
  | (k', v') :: rest => if k' = k then (k, v) :: rest else (k', v') :: mapSet rest k v

/-- The lookup `results[k]` with its `exists` flag. -/
def mapGet (m : ResultMap) (k : String) : Option FileCompareResult :=
  match m with
  | [] => none
  | (k', v') :: rest => if k' = k then some v' else mapGet rest k

/-! ## `readFile` (Checker.go:26-32) -/

/-- Go `error` values of this program: the error of `os.ReadFile` for a path,
and `fmt.Errorf(msg + "%w", err)` wrapping another error. -/
inductive ReadError where
  | unreadable (path : String)
  | wrap (msg : String) (err : ReadError)
  deriving DecidableEq, Repr

/-- `readFile` over a file system given as a partial map from path to
contents. -/
def readFile (fs : String → Option String) (filename : String) : Except ReadError String :=
  match fs filename with
  | none => Except.error (ReadError.wrap "failed reading file: " (ReadError.unreadable filename))
  | some data => Except.ok data

/-! ## `compareFilesInFolders` (Checker.go:56-91) -/

/-- The verdict of Checker.go:78:
`len(diffs) == 1 && diffs[0].Type == diffmatchpatch.DiffEqual`. -/
def isMatch (diffs : List Diff) : Bool :=
  diffs.length == 1 &&
    (match diffs[0]? with
     | some d => d.Type_ == Operation.DiffEqual
     | none => false)

/-- The value stored at Checker.go:83-87 for one pair, from the segment
sequence the diff routine returned. -/
def mkResult (diffs : List Diff) : FileCompareResult :=
  { matched := isMatch diffs, diffs := diffs, formattedOutput := generateFormattedOutput diffs }

/-- The `for i := 1; i <= numFiles; i++` loop of `compareFilesInFolders` over
the remaining values of `i`, with the current `matchedCount` and `results`.
The result is the triple the function returns; a `nil` map is `none`. -/
def compareLoop (fs : String → Option String) (DiffMain : String → String → List Diff)
    (folder1 folder2 : String) :
    List Nat → Int → ResultMap → Int × Option ResultMap × Option ReadError
  | [], matchedCount, results => (matchedCount, some results, none)
  | i :: rest, matchedCount, results =>
    let fileName := dataFileName i
    let file1 := folder1 ++ "/" ++ fileName
    let file2 := folder2 ++ "/" ++ fileName
    match readFile fs file1 with
    | Except.error err => (0, none, some (ReadError.wrap "error reading file1: " err))
    | Except.ok text1 =>
      match readFile fs file2 with
      | Except.error err => (0, none, some (ReadError.wrap "error reading file2: " err))
      | Except.ok text2 =>
        let diffs := DiffMain text1 text2
        let matched := isMatch diffs
        let matchedCount := if matched then matchedCount + 1 else matchedCount
        compareLoop fs DiffMain folder1 folder2 rest matchedCount
          (mapSet results fileName
            { matched := matched, diffs := diffs,
              formattedOutput := generateFormattedOutput diffs })

/-- `compareFilesInFolders`. The loop variable takes the values
`1, 2, ..., numFiles` (none when `numFiles < 1`). -/
def compareFilesInFolders (fs : String → Option String)
    (DiffMain : String → String → List Diff) (folder1 folder2 : String) (numFiles : Int) :
    Int × Option ResultMap × Option ReadError :=
  compareLoop fs DiffMain folder1 folder2 (List.range' 1 numFiles.toNat) 0 []

/-- The path `fmt.Sprintf("%s/%s", folder, fileName)` of the file numbered `i`
in `folder` (Checker.go:61-63). -/
def filePath (folder : String) (i : Nat) : String := folder ++ "/" ++ dataFileName i

/-- Whether both files numbered `i` can be read. -/
def bothReadable (fs : String → Option String) (folder1 folder2 : String) (i : Nat) : Bool :=
  (fs (filePath folder1 i)).isSome && (fs (filePath folder2 i)).isSome

/-- The entry `compareFilesInFolders` stores for the pair numbered `i` when
both files are readable. -/
def entryOf (fs : String → Option String) (DiffMain : String → String → List Diff)
    (folder1 folder2 : String) (i : Nat) : String × FileCompareResult :=
  (dataFileName i,
    mkResult (DiffMain ((fs (filePath folder1 i)).getD "") ((fs (filePath folder2 i)).getD "")))

/-- The error `compareFilesInFolders` returns when the pair numbered `i` is
the one it fails on: the reference file is read first. -/
def readErrorAt (fs : String → Option String) (folder1 folder2 : String) (i : Nat) : ReadError :=
  if fs (filePath folder1 i) = none then
    ReadError.wrap "error reading file1: "
      (ReadError.wrap "failed reading file: " (ReadError.unreadable (filePath folder1 i)))
  else
    ReadError.wrap "error reading file2: "
      (ReadError.wrap "failed reading file: " (ReadError.unreadable (filePath folder2 i)))

/-! ## `showIncorrectFiles` (Checker.go:142-171) -/

/-- One iteration of the `range results` loop of `showIncorrectFiles` on the
pair `(incorrectFiles, hasIncorrect)`. -/
def incorrectStep (acc : List Int × Bool) (entry : String × FileCompareResult) :
    List Int × Bool :=
  if !entry.2.matched then (acc.1 ++ [sscanfDataOut entry.1 0], true) else acc

/-- `sort.Ints`: the ascending rearrangement of a list of integers. -/
def sortInts (l : List Int) : List Int := l.insertionSort (fun a b => a ≤ b)

/-- The slice `incorrectFiles` of `showIncorrectFiles` once sorted, when the
map is ranged over in the order `iter`. (When nothing was collected the
function returns before sorting, with the slice empty.) -/
def incorrectFiles (iter : List (String × FileCompareResult)) : List Int :=
  sortInts (iter.foldl incorrectStep ([], false)).1

/-- `showIncorrectFiles`: everything the call prints, when the map is ranged
over in the order `iter`. -/
def showIncorrectFiles (iter : List (String × FileCompareResult)) : String :=
  let header := "\nIncorrect files:\n" ++ "---------------\n"
  let collected := iter.foldl incorrectStep ([], false)
  if !collected.2 then header ++ "None - all files are correct!\n"
  else
    header ++ (sortInts collected.1).foldl (fun out num => out ++ ("- data" ++ fmtInt num ++ ".out\n")) ""
      ++ "\n"

/-! ## The interactive loop of `main` (Checker.go:206-240) -/

/-- State of the interactive loop: the loop flag, the state `σ` of standard
input and everything printed so far. -/
structure Session (σ : Type) where
  continueViewing : Bool
  input : σ
  output : String
  deriving DecidableEq, Repr

/-- One iteration of the body of `for continueViewing` in `main`. The library
calls `fmt.Scanln(&response)` on a freshly declared `string` and
`fmt.Scanln(&fileNum)`, `fmt.Scanln(&displayType)` on a freshly declared `int`
are the parameters `scanlnString` and `scanlnInt`: from the state of standard
input they give the value the variable holds after the call (its zero value
when nothing was scanned) and the state of standard input after the call. -/
def loopBody {σ : Type} (scanlnString : σ → String × σ) (scanlnInt : σ → Int × σ)
    (numFiles : Int) (results : ResultMap) (s : Session σ) : Session σ :=
  let out := s.output ++ "\nWould you like to see differences for a file? (y/n): "
  let r1 := scanlnString s.input
  let response := r1.1
  if response ≠ "y" ∧ response ≠ "Y" then
    { continueViewing := false, input := r1.2, output := out }
  else
    let out := out ++ "Enter file number (1-34): "
    let r2 := scanlnInt r1.2
    let fileNum := r2.1
    if fileNum < 1 ∨ fileNum > numFiles then
      { s with
        input := r2.2
        output := out ++ ("Invalid file number. Please enter a number between 1 and "
          ++ fmtInt numFiles ++ "\n") }
    else
      let out := out ++ "Enter display type (1 for inline, 2 for side by side): "
      let r3 := scanlnInt r2.2
      let displayType := r3.1
      if displayType ≠ 1 ∧ displayType ≠ 2 then
        { s with input := r3.2, output := out ++ "Invalid display type\n" }
      else
        let fileName := dataFileName fileNum
        match mapGet results fileName with
        | some result =>
          { s with input := r3.2, output := out ++ showDifferences fileName result displayType }
        | none => { s with input := r3.2, output := out }

/-- The `for continueViewing` loop of `main`, run for at most the given number
of iterations. -/
def interactiveLoop {σ : Type} (scanlnString : σ → String × σ) (scanlnInt : σ → Int × σ)
    (numFiles : Int) (results : ResultMap) : Nat → Session σ → Session σ
  | 0, s => s
  | fuel + 1, s =>
    if s.continueViewing then
      interactiveLoop scanlnString scanlnInt numFiles results fuel
        (loopBody scanlnString scanlnInt numFiles results s)
    else s

/-- The answer the continue prompt of the next iteration reads. -/
def response {σ : Type} (scanlnString : σ → String × σ) (s : Session σ) : String :=
  (scanlnString s.input).1

/-- The file number the second prompt of the next iteration reads. -/
def fileNum {σ : Type} (scanlnString : σ → String × σ) (scanlnInt : σ → Int × σ)
    (s : Session σ) : Int :=
  (scanlnInt (scanlnString s.input).2).1

/-- The display type the third prompt of the next iteration reads. -/
def displayType {σ : Type} (scanlnString : σ → String × σ) (scanlnInt : σ → Int × σ)
    (s : Session σ) : Int :=
  (scanlnInt (scanlnInt (scanlnString s.input).2).2).1

/-- The state of standard input after one, two and three prompts. -/
def inputAfter {σ : Type} (scanlnString : σ → String × σ) (scanlnInt : σ → Int × σ)
    (s : Session σ) : σ × σ × σ :=
  ((scanlnString s.input).2, (scanlnInt (scanlnString s.input).2).2,
    (scanlnInt (scanlnInt (scanlnString s.input).2).2).2)

/-- The continue prompt (Checker.go:209). -/
def promptContinue : String := "\nWould you like to see differences for a file? (y/n): "

/-- The prompt for the file number (Checker.go:218). -/
def promptFileNum : String := "Enter file number (1-34): "

/-- The prompt for the display type (Checker.go:227). -/
def promptDisplayType : String := "Enter display type (1 for inline, 2 for side by side): "

/-- Scripted answers: the values the successive `fmt.Scanln` calls of a session
leave in their variable, the answers to the continue prompt in `responses` and
the numbers read at the two numeric prompts in `numbers`. -/
structure Script where
  responses : List String
  numbers : List Int
  deriving DecidableEq, Repr

/-- Modelled from the spec: `fmt.Scanln` is library code outside the
repository. On a script, `fmt.Scanln(&response)` takes the next scripted
answer; when none is left (end of input) the variable keeps its zero value,
the empty string, which is also what a blank line leaves in it. -/
def scriptString (sc : Script) : String × Script :=
  match sc.responses with
  | [] => ("", sc)
  | a :: rest => (a, { sc with responses := rest })

/-- Modelled from the spec: `fmt.Scanln(&n)` on a script takes the next
scripted number; when none is left the variable keeps its zero value. -/
def scriptInt (sc : Script) : Int × Script :=
  match sc.numbers with
  | [] => (0, sc)
  | n :: rest => (n, { sc with numbers := rest })

/-! ## The contract of the diff routine -/

/-- `diffmatchpatch.DiffText1`: the source text of a segment sequence, all
fragments that are not insertions, in order. -/
def DiffText1 (diffs : List Diff) : String :=
  diffs.foldl (fun text d => if d.Type_ ≠ Operation.DiffInsert then text ++ d.Text else text) ""

/-- `diffmatchpatch.DiffText2`: the destination text of a segment sequence,
all fragments that are not deletions, in order. -/
def DiffText2 (diffs : List Diff) : String :=
  diffs.foldl (fun text d => if d.Type_ ≠ Operation.DiffDelete then text ++ d.Text else text) ""

/-- The reconstruction invariant of a segment sequence for the pair of texts
`(a, b)`: the Equal and Delete fragments concatenate to `a`, the Equal and
Insert fragments concatenate to `b`. -/
def Reconstructs (diffs : List Diff) (a b : String) : Prop :=
  DiffText1 diffs = a ∧ DiffText2 diffs = b

/-- Length of the longest common prefix of two character lists. -/
def sharedLen : List Char → List Char → Nat
  | a :: as, b :: bs => if a = b then sharedLen as bs + 1 else 0
  | _, _ => 0

/-- Modelled from the spec: the diff routine `diffmatchpatch.DiffMain` is an
external library whose code is not in the repository. This stand-in meets
what the specification requires of it (an ordered segment sequence whose
Equal and Delete fragments rebuild the first text and whose Equal and Insert
fragments rebuild the second, with no segment at all for two empty texts and
one Equal segment for two equal non-empty texts): the common prefix as an
Equal segment, then the rest of the first text deleted and the rest of the
second inserted. It instantiates the `DiffMain` parameter in the concrete
scenarios only. -/
def sampleDiff (text1 text2 : String) : List Diff :=
  let n := sharedLen text1.data text2.data
  let seg (op : Operation) (cs : List Char) : List Diff :=
    if cs = [] then [] else [{ Type_ := op, Text := String.mk cs }]
  seg Operation.DiffEqual (text1.data.take n)
    ++ seg Operation.DiffDelete (text1.data.drop n)
    ++ seg Operation.DiffInsert (text2.data.drop n)

/-- A file system holding the listed files and nothing else. -/
def fsOf (files : List (String × String)) (path : String) : Option String :=
  match files with
  | [] => none
  | (p, data) :: rest => if p = path then some data else fsOf rest path

/-- Scenario 1: three pairs of identical files. -/
def scenario1 : String → Option String :=
  fsOf [("./LastRef/data1.out", "x"), ("./OutputData/data1.out", "x"),
        ("./LastRef/data2.out", "abc"), ("./OutputData/data2.out", "abc"),
        ("./LastRef/data3.out", "z"), ("./OutputData/data3.out", "z")]

/-- Scenario 2: three pairs, of which the second differs (`abc` against
`abd`). -/
def scenario2 : String → Option String :=
  fsOf [("./LastRef/data1.out", "x"), ("./OutputData/data1.out", "x"),
        ("./LastRef/data2.out", "abc"), ("./OutputData/data2.out", "abd"),
        ("./LastRef/data3.out", "z"), ("./OutputData/data3.out", "z")]

/-- The mapping a run returns in scenario 2. -/
def scenario2Results : ResultMap :=
  [("data1.out", mkResult [{ Type_ := Operation.DiffEqual, Text := "x" }]),
   ("data2.out", mkResult [{ Type_ := Operation.DiffEqual, Text := "ab" },
                           { Type_ := Operation.DiffDelete, Text := "c" },
                           { Type_ := Operation.DiffInsert, Text := "d" }]),
   ("data3.out", mkResult [{ Type_ := Operation.DiffEqual, Text := "z" }])]

/-- Scenario 3: the candidate folder lacks `data2.out`. -/
def scenario3 : String → Option String :=
  fsOf [("./LastRef/data1.out", "x"), ("./OutputData/data1.out", "x"),
        ("./LastRef/data2.out", "abc"),
        ("./LastRef/data3.out", "z"), ("./OutputData/data3.out", "z")]

/-- Two empty files numbered 1. -/
def emptyPair : String → Option String :=
  fsOf [("./LastRef/data1.out", ""), ("./OutputData/data1.out", "")]

/-! ## Specification-side renderings -/

/-- What a segment contributes to the reference column according to the
description of the side-by-side view: Equal unmarked, Delete wrapped in a red
background, Insert nothing. -/
def refPiece (d : Diff) : String :=
  match d.Type_ with
  | Operation.DiffEqual => d.Text
  | Operation.DiffDelete => "\x1b[41m" ++ d.Text ++ "\x1b[0m"
  | Operation.DiffInsert => ""

/-- What a segment contributes to the candidate column: Equal unmarked,
Insert wrapped in a green background, Delete nothing. -/
def outPiece (d : Diff) : String :=
  match d.Type_ with
  | Operation.DiffEqual => d.Text
  | Operation.DiffInsert => "\x1b[42m" ++ d.Text ++ "\x1b[0m"
  | Operation.DiffDelete => ""

/-- In-order concatenation of a list of strings. -/
def concat : List String → String
  | [] => ""
  | s :: ss => s ++ concat ss

/-- What a segment contributes to the inline view according to its
description: Insert wrapped in the added marker, Delete in the removed marker,
Equal unmarked. -/
def inlinePiece (d : Diff) : String :=
  match d.Type_ with
  | Operation.DiffInsert => "\x1b[32m" ++ d.Text ++ "\x1b[0m"
  | Operation.DiffDelete => "\x1b[31m" ++ d.Text ++ "\x1b[0m"
  | Operation.DiffEqual => d.Text

/-- Number of newline characters of a string. -/
def newlines (s : String) : Nat := s.data.count '\n'

/-! ## Lemmas: splitting and joining -/

theorem splitChars_ne_nil (sep : Char) (cs : List Char) : splitChars sep cs ≠ [] := by
  induction cs with
  | nil => simp [splitChars]
  | cons c cs ih =>
    unfold splitChars
    split
    · simp
    · split <;> simp

theorem splitChars_length (sep : Char) (cs : List Char) :
    (splitChars sep cs).length = cs.count sep + 1 := by
  induction cs with
  | nil => simp [splitChars]
  | cons c cs ih =>
    unfold splitChars
    by_cases h : c = sep
    · subst h
      simp [ih]
    · have h2 : ¬ (c == sep) = true := by simpa using h
      rw [if_neg h, List.count_cons, if_neg h2]
      cases hs : splitChars sep cs with
      | nil => exact absurd hs (splitChars_ne_nil sep cs)
      | cons l ls => simp [← ih, hs]

theorem intercalate_splitChars (sep : Char) (cs : List Char) :
    [sep].intercalate (splitChars sep cs) = cs := by
  induction cs with
  | nil => simp [splitChars, List.intercalate]
  | cons c cs ih =>
    unfold splitChars
    by_cases h : c = sep
    · subst h
      rw [if_pos rfl]
      cases hs : splitChars c cs with
      | nil => exact absurd hs (splitChars_ne_nil c cs)
      | cons l ls =>
        rw [hs] at ih
        simp [List.intercalate, List.intersperse] at ih ⊢
        exact ih
    · rw [if_neg h]
      cases hs : splitChars sep cs with
      | nil => exact absurd hs (splitChars_ne_nil sep cs)
      | cons l ls =>
        rw [hs] at ih
        cases ls with
        | nil => simpa [List.intercalate, List.intersperse] using ih
        | cons l2 ls2 => simpa [List.intercalate, List.intersperse] using ih

theorem data_intercalate_go (sep : String) (l : List String) (acc : String) :
    (String.intercalate.go acc sep l).data
      = acc.data ++ (l.map (fun x => sep.data ++ x.data)).flatten := by
  induction l generalizing acc with
  | nil => simp [String.intercalate.go]
  | cons a as ih => simp [String.intercalate.go, ih, List.append_assoc]

theorem intercalate_Split (s : String) (sep : Char) :
    String.intercalate (String.singleton sep) (Split s sep) = s := by
  apply String.ext
  unfold Split
  have key := intercalate_splitChars sep s.data
  cases hs : splitChars sep s.data with
  | nil => exact absurd hs (splitChars_ne_nil sep s.data)
  | cons l ls =>
    rw [hs] at key
    rw [← key]
    simp only [List.map_cons, String.intercalate, data_intercalate_go]
    clear key hs
    induction ls generalizing l with
    | nil => simp [List.intercalate, List.intersperse]
    | cons l2 ls2 ih =>
      have h := ih l2
      simp [List.intercalate, List.intersperse, String.singleton] at h ⊢
      exact h

theorem Split_length (s : String) (sep : Char) :
    (Split s sep).length = s.data.count sep + 1 := by
  simp [Split, splitChars_length]

/-! ## Lemmas: decimal numerals -/

theorem digitChar_props (d : Nat) (h : d < 10) :
    (digitChar d).isDigit = true ∧ (digitChar d).toNat - 48 = d
      ∧ isSpace (digitChar d) = false ∧ digitChar d ≠ '\n'
      ∧ digitChar d ≠ '+' ∧ digitChar d ≠ '-' := by
  interval_cases d <;> decide

theorem fmtDigits_acc (fuel u : Nat) (acc : List Char) :
    fmtDigits fuel u acc = fmtDigits fuel u [] ++ acc := by
  induction fuel generalizing u acc with
  | zero => simp [fmtDigits]
  | succ n ih =>
    unfold fmtDigits
    split
    · rw [ih (u / 10) (digitChar (u % 10) :: acc), ih (u / 10) [digitChar (u % 10)]]
      simp
    · simp

theorem parseDec_snoc (l : List Char) (c : Char) :
    parseDec (l ++ [c]) = parseDec l * 10 + (c.toNat - 48) := by
  simp [parseDec, List.foldl_append]

theorem fmtDigits_spec (fuel u : Nat) (h : u ≤ fuel) :
    (∀ c ∈ fmtDigits fuel u [], c.isDigit = true)
      ∧ parseDec (fmtDigits fuel u []) = u
      ∧ ∃ c cs, fmtDigits fuel u [] = c :: cs
          ∧ isSpace c = false ∧ c ≠ '\n' ∧ c ≠ '+' ∧ c ≠ '-' := by
  induction fuel generalizing u with
  | zero =>
    have hu : u = 0 := by omega
    subst hu
    refine ⟨?_, by decide, '0', [], by decide, by decide, by decide, by decide, by decide⟩
    intro c hc
    have h0 : fmtDigits 0 0 [] = ['0'] := by decide
    rw [h0, List.mem_singleton] at hc
    subst hc
    decide
  | succ n ih =>
    unfold fmtDigits
    by_cases h10 : 10 ≤ u
    · rw [if_pos h10, fmtDigits_acc]
      have hlt : u / 10 ≤ n := by omega
      obtain ⟨hd, hp, c, cs, hc, hsp, hnl, hplus, hminus⟩ := ih (u / 10) hlt
      have hdig := digitChar_props (u % 10) (Nat.mod_lt u (by norm_num))
      refine ⟨?_, ?_, c, cs ++ [digitChar (u % 10)], ?_, hsp, hnl, hplus, hminus⟩
      · intro x hx
        rcases List.mem_append.mp hx with hx | hx
        · exact hd x hx
        · rw [List.mem_singleton] at hx
          subst hx
          exact hdig.1
      · rw [parseDec_snoc, hp, hdig.2.1]
        omega
      · rw [hc]; rfl
    · rw [if_neg h10]
      have hdig := digitChar_props u (by omega)
      refine ⟨?_, ?_, digitChar u, [], rfl, hdig.2.2.1, hdig.2.2.2.1, hdig.2.2.2.2.1,
        hdig.2.2.2.2.2⟩
      · intro x hx
        rw [List.mem_singleton] at hx
        subst hx
        exact hdig.1
      · simp [parseDec, hdig.2.1]

theorem fmtInt_ofNat (n : Nat) : fmtInt (n : Int) = String.mk (fmtDigits n n []) := by
  simp [fmtInt]

theorem takeWhile_append_stop {α : Type} (p : α → Bool) (l : List α) (c : α) (r : List α)
    (hl : ∀ x ∈ l, p x = true) (hc : p c = false) :
    (l ++ c :: r).takeWhile p = l := by
  induction l with
  | nil => simp [List.takeWhile, hc]
  | cons a l ih =>
    have ha : p a = true := hl a (List.mem_cons_self a l)
    simp [List.takeWhile, ha]
    exact ih (fun x hx => hl x (List.mem_cons_of_mem a hx))

theorem scanInt_fmtDigits (n : Nat) (hn : (n : Int) < 2 ^ 63) (r : List Char) :
    scanInt (fmtDigits n n [] ++ '.' :: r) = some (n : Int) := by
  obtain ⟨hd, hp, c, cs, hc, hsp, hnl, hplus, hminus⟩ := fmtDigits_spec n n (le_refl n)
  have htw : (fmtDigits n n [] ++ '.' :: r).takeWhile Char.isDigit = fmtDigits n n [] := by
    apply takeWhile_append_stop
    · exact hd
    · decide
  have hne : fmtDigits n n [] ≠ [] := by rw [hc]; simp
  have hskip : skipSpace (fmtDigits n n [] ++ '.' :: r)
      = some (fmtDigits n n [] ++ '.' :: r) := by
    rw [hc]
    simp [skipSpace, hnl, hsp]
  have hsigned : (match fmtDigits n n [] ++ '.' :: r with
      | '+' :: r => (false, r)
      | '-' :: r => (true, r)
      | _ => (false, fmtDigits n n [] ++ '.' :: r))
        = ((false, fmtDigits n n [] ++ '.' :: r) : Bool × List Char) := by
    rw [hc]
    split
    · next h => simp at h; exact absurd h.1 hplus
    · next h => simp at h; exact absurd h.1 hminus
    · rfl
  unfold scanInt
  simp only [hskip, hsigned, htw]
  rw [if_neg hne]
  simp only [Bool.false_eq_true, if_false, hp]
  rw [if_pos]
  constructor
  · have : (0 : Int) ≤ n := Int.ofNat_nonneg n
    omega
  · exact hn

theorem dataFileName_data (n : Nat) :
    (dataFileName (n : Int)).data
      = 'd' :: 'a' :: 't' :: 'a' :: (fmtDigits n n [] ++ ['.', 'o', 'u', 't']) := by
  simp [dataFileName, fmtInt_ofNat]

theorem sscanfDataOut_dataFileName (n : Nat) (hn : (n : Int) < 2 ^ 63) (x : Int) :
    sscanfDataOut (dataFileName (n : Int)) x = (n : Int) := by
  unfold sscanfDataOut
  rw [dataFileName_data]
  simp only
  have := scanInt_fmtDigits n hn ['o', 'u', 't']
  rw [this]
  rfl

theorem dataFileName_injective (a b : Nat)
    (h : dataFileName (a : Int) = dataFileName (b : Int)) : a = b := by
  have hd := congrArg String.data h
  rw [dataFileName_data, dataFileName_data] at hd
  simp only [List.cons.injEq, true_and] at hd
  have hab := List.append_cancel_right hd
  have ha := (fmtDigits_spec a a (le_refl a)).2.1
  have hb := (fmtDigits_spec b b (le_refl b)).2.1
  rw [← ha, ← hb, hab]


/-! ## Lemmas: the result mapping -/

theorem mapSet_fresh (m : ResultMap) (k : String) (v : FileCompareResult)
    (h : k ∉ m.map Prod.fst) : mapSet m k v = m ++ [(k, v)] := by
  induction m with
  | nil => rfl
  | cons e m ih =>
    obtain ⟨k', v'⟩ := e
    simp only [List.map_cons, List.mem_cons, not_or] at h
    unfold mapSet
    rw [if_neg (fun hk => h.1 hk.symm), ih h.2]
    rfl

theorem foldl_mapSet_fresh (f : Nat → String × FileCompareResult) (l : List Nat)
    (res : ResultMap) (hnd : (l.map (fun i => (f i).1)).Nodup)
    (hdis : ∀ i ∈ l, (f i).1 ∉ res.map Prod.fst) :
    l.foldl (fun r i => mapSet r (f i).1 (f i).2) res = res ++ l.map f := by
  induction l generalizing res with
  | nil => simp
  | cons a l ih =>
    rw [List.foldl_cons, mapSet_fresh res _ _ (hdis a (List.mem_cons_self a l))]
    simp only [List.map_cons, List.nodup_cons] at hnd
    rw [ih _ hnd.2]
    · simp
    · intro i hi
      simp only [List.map_append, List.map_cons, List.map_nil, List.mem_append,
        List.mem_singleton, not_or]
      refine ⟨hdis i (List.mem_cons_of_mem a hi), ?_⟩
      intro heq
      apply hnd.1
      rw [← heq]
      exact List.mem_map_of_mem (fun i => (f i).1) hi

theorem mapGet_map (f : Nat → String × FileCompareResult) (l : List Nat)
    (hinj : ∀ a b, (f a).1 = (f b).1 → a = b) (n : Nat) (hn : n ∈ l) :
    mapGet (l.map f) (f n).1 = some (f n).2 := by
  induction l with
  | nil => simp at hn
  | cons a l ih =>
    simp only [List.map_cons]
    unfold mapGet
    by_cases h : (f a).1 = (f n).1
    · have := hinj a n h
      subst this
      simp
    · rcases List.mem_cons.mp hn with hn | hn
      · exact absurd (by rw [hn]) h
      · simp only [h, if_false]
        exact ih hn

/-! ## Lemmas: the comparison loop -/

theorem compareLoop_range (fs : String → Option String)
    (DiffMain : String → String → List Diff) (folder1 folder2 : String)
    (n s : Nat) (mc : Int) (res : ResultMap) :
    ((∀ i, s ≤ i → i < s + n → bothReadable fs folder1 folder2 i = true)
      ∧ compareLoop fs DiffMain folder1 folder2 (List.range' s n) mc res
        = (mc + ((List.range' s n).countP
              (fun i => (entryOf fs DiffMain folder1 folder2 i).2.matched) : Nat),
            some ((List.range' s n).foldl
              (fun r i => mapSet r (entryOf fs DiffMain folder1 folder2 i).1
                (entryOf fs DiffMain folder1 folder2 i).2) res),
            none))
    ∨ (∃ N, s ≤ N ∧ N < s + n
        ∧ (∀ M, s ≤ M → M < N → bothReadable fs folder1 folder2 M = true)
        ∧ bothReadable fs folder1 folder2 N = false
        ∧ compareLoop fs DiffMain folder1 folder2 (List.range' s n) mc res
          = (0, none, some (readErrorAt fs folder1 folder2 N))) := by
  induction n generalizing s mc res with
  | zero =>
    left
    refine ⟨fun i h1 h2 => by omega, ?_⟩
    simp [compareLoop]
  | succ n ih =>
    rw [List.range'_succ]
    cases h1 : fs (filePath folder1 s) with
    | none =>
      right
      refine ⟨s, le_refl s, by omega, fun M h1 h2 => by omega, ?_, ?_⟩
      · simp [bothReadable, h1]
      · have h1' : fs (folder1 ++ "/" ++ dataFileName (s : Int)) = none := h1
        simp [compareLoop, readFile, h1', readErrorAt, h1, filePath]
    | some t1 =>
      cases h2 : fs (filePath folder2 s) with
      | none =>
        right
        refine ⟨s, le_refl s, by omega, fun M h1 h2 => by omega, ?_, ?_⟩
        · simp [bothReadable, h2]
        · have h1' : fs (folder1 ++ "/" ++ dataFileName (s : Int)) = some t1 := h1
          have h2' : fs (folder2 ++ "/" ++ dataFileName (s : Int)) = none := h2
          simp [compareLoop, readFile, h1', h2', readErrorAt, h1, filePath]
      | some t2 =>
        have h1' : fs (folder1 ++ "/" ++ dataFileName (s : Int)) = some t1 := h1
        have h2' : fs (folder2 ++ "/" ++ dataFileName (s : Int)) = some t2 := h2
        have hs : bothReadable fs folder1 folder2 s = true := by
          simp [bothReadable, h1, h2]
        have hent : entryOf fs DiffMain folder1 folder2 s
            = (dataFileName (s : Int), mkResult (DiffMain t1 t2)) := by
          simp [entryOf, h1, h2]
        have hstep : ∀ l, compareLoop fs DiffMain folder1 folder2 (s :: l) mc res
            = compareLoop fs DiffMain folder1 folder2 l
                (if isMatch (DiffMain t1 t2) then mc + 1 else mc)
                (mapSet res (dataFileName (s : Int)) (mkResult (DiffMain t1 t2))) := by
          intro l
          simp [compareLoop, readFile, h1', h2', mkResult]
        rw [hstep]
        rcases ih (s + 1) (if isMatch (DiffMain t1 t2) then mc + 1 else mc)
            (mapSet res (dataFileName (s : Int)) (mkResult (DiffMain t1 t2))) with
          ⟨hall, heq⟩ | ⟨N, hN1, hN2, hpre, hbad, heq⟩
        · left
          refine ⟨?_, ?_⟩
          · intro i hi1 hi2
            by_cases hi : i = s
            · rw [hi]; exact hs
            · exact hall i (by omega) (by omega)
          · rw [heq, List.foldl_cons, List.countP_cons, hent]
            simp only [mkResult]
            by_cases hm : isMatch (DiffMain t1 t2) = true
            · simp [hm]; omega
            · simp [hm]
        · right
          refine ⟨N, by omega, by omega, ?_, hbad, heq⟩
          intro M hM1 hM2
          by_cases hM : M = s
          · rw [hM]; exact hs
          · exact hpre M (by omega) hM2


/-! ## Lemmas: the rendering loops -/

theorem foldl_formatStep (ds : List Diff) (r o : String) :
    ds.foldl formatStep (r, o)
      = (r ++ concat (ds.map refPiece), o ++ concat (ds.map outPiece)) := by
  induction ds generalizing r o with
  | nil => simp [concat]
  | cons d ds ih =>
    rw [List.foldl_cons]
    obtain ⟨t, x⟩ := d
    cases t <;>
      simp [formatStep, ih, refPiece, outPiece, concat, String.append_assoc]

theorem foldl_inlinePrint (ds : List Diff) (out : String) :
    ds.foldl (fun out diff => out ++ inlinePrint diff) out
      = out ++ concat (ds.map inlinePiece) := by
  induction ds generalizing out with
  | nil => simp [concat]
  | cons d ds ih =>
    rw [List.foldl_cons, ih]
    obtain ⟨t, x⟩ := d
    cases t <;> simp [inlinePrint, inlinePiece, concat, String.append_assoc]

theorem concat_refPiece_filter (ds : List Diff) :
    concat ((ds.filter (fun d => decide (d.Type_ ≠ Operation.DiffInsert))).map refPiece)
      = concat (ds.map refPiece) := by
  induction ds with
  | nil => rfl
  | cons d ds ih =>
    obtain ⟨t, x⟩ := d
    cases t <;> simp_all [List.filter, refPiece, concat]

theorem concat_outPiece_filter (ds : List Diff) :
    concat ((ds.filter (fun d => decide (d.Type_ ≠ Operation.DiffDelete))).map outPiece)
      = concat (ds.map outPiece) := by
  induction ds with
  | nil => rfl
  | cons d ds ih =>
    obtain ⟨t, x⟩ := d
    cases t <;> simp_all [List.filter, outPiece, concat]

theorem generateFormattedOutput_eq (ds : List Diff) :
    generateFormattedOutput ds
      = { reference := Split (concat (ds.map refPiece)) '\n',
          output := Split (concat (ds.map outPiece)) '\n' } := by
  simp [generateFormattedOutput, foldl_formatStep]

/-! ## The renderers -/

/-- C4: `generateFormattedOutput` returns, for the reference column, the split
on newlines of the concatenation of the Equal fragments unmarked and the
Delete fragments wrapped in `ESC[41m`/`ESC[0m` (insertions contribute
nothing), and for the candidate column the split of the Equal fragments
unmarked and the Insert fragments wrapped in `ESC[42m`/`ESC[0m` (deletions
contribute nothing). Joining either line sequence with newlines gives the
concatenated text back, and either has one more line than the text has
newlines, so at least one. -/
theorem generateFormattedOutput_lines (ds : List Diff) :
    (generateFormattedOutput ds).reference = Split (concat (ds.map refPiece)) '\n'
    ∧ (generateFormattedOutput ds).output = Split (concat (ds.map outPiece)) '\n'
    ∧ String.intercalate "\n" (generateFormattedOutput ds).reference = concat (ds.map refPiece)
    ∧ String.intercalate "\n" (generateFormattedOutput ds).output = concat (ds.map outPiece)
    ∧ (generateFormattedOutput ds).reference.length = newlines (concat (ds.map refPiece)) + 1
    ∧ (generateFormattedOutput ds).output.length = newlines (concat (ds.map outPiece)) + 1
    ∧ 1 ≤ (generateFormattedOutput ds).reference.length
    ∧ 1 ≤ (generateFormattedOutput ds).output.length := by
  rw [generateFormattedOutput_eq]
  refine ⟨rfl, rfl, ?_, ?_, ?_, ?_, ?_, ?_⟩
  · exact intercalate_Split _ '\n'
  · exact intercalate_Split _ '\n'
  · exact Split_length _ '\n'
  · exact Split_length _ '\n'
  · simp [Split_length]
  · simp [Split_length]

/-- C5: the reference lines of `generateFormattedOutput` do not depend on the
Insert segments (they are those of the sequence with every Insert segment
removed), and the candidate lines do not depend on the Delete segments. -/
theorem generateFormattedOutput_columns_independent (ds : List Diff) :
    (generateFormattedOutput ds).reference
      = (generateFormattedOutput
          (ds.filter (fun d => decide (d.Type_ ≠ Operation.DiffInsert)))).reference
    ∧ (generateFormattedOutput ds).output
      = (generateFormattedOutput
          (ds.filter (fun d => decide (d.Type_ ≠ Operation.DiffDelete)))).output := by
  constructor
  · rw [generateFormattedOutput_eq, generateFormattedOutput_eq, concat_refPiece_filter]
  · rw [generateFormattedOutput_eq, generateFormattedOutput_eq, concat_outPiece_filter]

/-- Counterexample to C9: for the stored result of two identical files, whose
segment sequence is the single segment Equal `abc`, `showDifferences` with
display type 1 prints only the line saying the files are identical; the
fragment `abc` is not part of what is printed. -/
theorem inline_view_skips_matched_result :
    showDifferences "data1.out" (mkResult [{ Type_ := Operation.DiffEqual, Text := "abc" }]) 1
      = "\x1b[32mFile data1.out: Files are identical\x1b[0m\n"
    ∧ concat ([{ Type_ := Operation.DiffEqual, Text := "abc" }].map inlinePiece) = "abc"
    ∧ ¬ ("abc".data <:+:
        (showDifferences "data1.out"
          (mkResult [{ Type_ := Operation.DiffEqual, Text := "abc" }]) 1).data) := by
  decide

/-- C9 as amended: with display type 1, `showDifferences` prints for a result
whose `matched` flag is false the line saying the files are different, then
the fragments of all segments in their original order, Insert fragments
wrapped in `ESC[32m`/`ESC[0m`, Delete fragments in `ESC[31m`/`ESC[0m`, Equal
fragments unmarked, then a newline; for a result whose `matched` flag is true
it prints only the line saying the files are identical. For the sequence
Equal `ab`, Delete `c`, Insert `d` the text is `ab`, then `c` marked removed,
then `d` marked added. -/
theorem showDifferences_inline (fileName : String) (result : FileCompareResult) :
    showDifferences fileName result 1
      = (if result.matched then
          "\x1b[32mFile " ++ fileName ++ ": Files are identical\x1b[0m\n"
        else
          "\x1b[31mFile " ++ fileName ++ ": Files are different\x1b[0m\n"
            ++ concat (result.diffs.map inlinePiece) ++ "\n")
    ∧ concat ([{ Type_ := Operation.DiffEqual, Text := "ab" },
               { Type_ := Operation.DiffDelete, Text := "c" },
               { Type_ := Operation.DiffInsert, Text := "d" }].map inlinePiece)
        = "ab" ++ ("\x1b[31m" ++ "c" ++ "\x1b[0m") ++ ("\x1b[32m" ++ "d" ++ "\x1b[0m") := by
  refine ⟨?_, by decide⟩
  unfold showDifferences
  by_cases h : result.matched = true
  · simp [h]
  · simp [h, foldl_inlinePrint]

/-! ## The stand-in diff routine meets the contract -/

theorem take_sharedLen (a b : List Char) :
    a.take (sharedLen a b) = b.take (sharedLen a b) := by
  induction a generalizing b with
  | nil => simp [sharedLen]
  | cons x a ih =>
    cases b with
    | nil => simp [sharedLen]
    | cons y b =>
      unfold sharedLen
      by_cases h : x = y
      · subst h
        simp [ih b]
      · simp [h]

theorem sharedLen_self (a : List Char) : sharedLen a a = a.length := by
  induction a with
  | nil => rfl
  | cons x a ih => simp [sharedLen, ih]

theorem DiffText1_append (l₁ l₂ : List Diff) :
    DiffText1 (l₁ ++ l₂) = DiffText1 l₁ ++ DiffText1 l₂ := by
  have key : ∀ (l : List Diff) (acc : String),
      l.foldl (fun text d =>
          if d.Type_ ≠ Operation.DiffInsert then text ++ d.Text else text) acc
        = acc ++ DiffText1 l := by
    intro l
    induction l with
    | nil => intro acc; simp [DiffText1]
    | cons d l ih =>
      intro acc
      unfold DiffText1
      rw [List.foldl_cons, List.foldl_cons, ih,
        ih (if d.Type_ ≠ Operation.DiffInsert then "" ++ d.Text else "")]
      split <;> simp [String.append_assoc]
  unfold DiffText1
  rw [List.foldl_append, key]
  rfl

theorem DiffText2_append (l₁ l₂ : List Diff) :
    DiffText2 (l₁ ++ l₂) = DiffText2 l₁ ++ DiffText2 l₂ := by
  have key : ∀ (l : List Diff) (acc : String),
      l.foldl (fun text d =>
          if d.Type_ ≠ Operation.DiffDelete then text ++ d.Text else text) acc
        = acc ++ DiffText2 l := by
    intro l
    induction l with
    | nil => intro acc; simp [DiffText2]
    | cons d l ih =>
      intro acc
      unfold DiffText2
      rw [List.foldl_cons, List.foldl_cons, ih,
        ih (if d.Type_ ≠ Operation.DiffDelete then "" ++ d.Text else "")]
      split <;> simp [String.append_assoc]
  unfold DiffText2
  rw [List.foldl_append, key]
  rfl

theorem sampleDiff_reconstructs (text1 text2 : String) :
    Reconstructs (sampleDiff text1 text2) text1 text2 := by
  have hseg1 : ∀ (op : Operation) (cs : List Char), op ≠ Operation.DiffInsert →
      DiffText1 (if cs = [] then [] else [{ Type_ := op, Text := String.mk cs }])
        = String.mk cs := by
    intro op cs hop
    by_cases h : cs = []
    · subst h; rfl
    · simp [h, DiffText1, hop]
  have hseg2 : ∀ (op : Operation) (cs : List Char), op ≠ Operation.DiffDelete →
      DiffText2 (if cs = [] then [] else [{ Type_ := op, Text := String.mk cs }])
        = String.mk cs := by
    intro op cs hop
    by_cases h : cs = []
    · subst h; rfl
    · simp [h, DiffText2, hop]
  have hins : ∀ cs : List Char,
      DiffText1 (if cs = [] then []
        else [{ Type_ := Operation.DiffInsert, Text := String.mk cs }]) = "" := by
    intro cs
    by_cases h : cs = []
    · subst h; rfl
    · simp [h, DiffText1]
  have hdel : ∀ cs : List Char,
      DiffText2 (if cs = [] then []
        else [{ Type_ := Operation.DiffDelete, Text := String.mk cs }]) = "" := by
    intro cs
    by_cases h : cs = []
    · subst h; rfl
    · simp [h, DiffText2]
  constructor
  · simp only [sampleDiff, DiffText1_append]
    rw [hseg1 _ _ (by decide), hseg1 _ _ (by decide), hins]
    apply String.ext
    simp
  · simp only [sampleDiff, DiffText2_append]
    rw [hseg2 _ _ (by decide), hdel, hseg2 _ _ (by decide)]
    apply String.ext
    simp [take_sharedLen text1.data text2.data]

theorem sampleDiff_self (text : String) :
    sampleDiff text text
      = if text = "" then [] else [{ Type_ := Operation.DiffEqual, Text := text }] := by
  have hd : text = "" ↔ text.data = [] := by
    constructor
    · rintro rfl; rfl
    · intro h; exact String.ext h
  by_cases h : text.data = []
  · have : text = "" := hd.mpr h
    subst this
    decide
  · have hne : ¬ text = "" := fun hc => h (hd.mp hc)
    have hlen : text.length ≠ 0 := fun hc => h (List.length_eq_zero.mp hc)
    have htake : List.take text.length text.data = text.data := List.take_length _
    simp [sampleDiff, sharedLen_self, h, hne, hlen, htake]


theorem self_comparison_matched_iff (DiffMain : String → String → List Diff)
    (hD : ∀ a, DiffMain a a
      = if a = "" then [] else [{ Type_ := Operation.DiffEqual, Text := a }])
    (a : String) : (mkResult (DiffMain a a)).matched = true ↔ a ≠ "" := by
  rw [hD a]
  by_cases h : a = ""
  · simp [h, mkResult, isMatch]
  · simp [h, mkResult, isMatch]

/-! ## The batch run -/

theorem entryOf_fst_injective (fs : String → Option String)
    (DiffMain : String → String → List Diff) (folder1 folder2 : String) (a b : Nat)
    (h : (entryOf fs DiffMain folder1 folder2 a).1 = (entryOf fs DiffMain folder1 folder2 b).1) :
    a = b :=
  dataFileName_injective a b h

theorem entryOf_keys_nodup (fs : String → Option String)
    (DiffMain : String → String → List Diff) (folder1 folder2 : String) (l : List Nat)
    (hl : l.Nodup) :
    (l.map (fun i => (entryOf fs DiffMain folder1 folder2 i).1)).Nodup :=
  List.Nodup.map (fun a b h => dataFileName_injective a b h) hl

theorem compareFilesInFolders_cases (fs : String → Option String)
    (DiffMain : String → String → List Diff) (folder1 folder2 : String) (count : Nat) :
    ((∀ i, 1 ≤ i → i ≤ count → bothReadable fs folder1 folder2 i = true)
      ∧ compareFilesInFolders fs DiffMain folder1 folder2 count
        = ((((List.range' 1 count).countP
              (fun i => (entryOf fs DiffMain folder1 folder2 i).2.matched) : Nat) : Int),
            some ((List.range' 1 count).map (entryOf fs DiffMain folder1 folder2)),
            none))
    ∨ (∃ N, 1 ≤ N ∧ N ≤ count
        ∧ (∀ M, 1 ≤ M → M < N → bothReadable fs folder1 folder2 M = true)
        ∧ bothReadable fs folder1 folder2 N = false
        ∧ compareFilesInFolders fs DiffMain folder1 folder2 count
          = (0, none, some (readErrorAt fs folder1 folder2 N))) := by
  unfold compareFilesInFolders
  rw [Int.toNat_ofNat]
  rcases compareLoop_range fs DiffMain folder1 folder2 count 1 0 [] with
    ⟨hall, heq⟩ | ⟨N, hN1, hN2, hpre, hbad, heq⟩
  · left
    refine ⟨fun i h1 h2 => hall i h1 (by omega), ?_⟩
    rw [heq, foldl_mapSet_fresh (entryOf fs DiffMain folder1 folder2) _ []
      (entryOf_keys_nodup fs DiffMain folder1 folder2 _ (List.nodup_range' 1 count))
      (fun i _ => by simp)]
    simp
  · right
    exact ⟨N, hN1, by omega, hpre, hbad, heq⟩

theorem compareFilesInFolders_success (fs : String → Option String)
    (DiffMain : String → String → List Diff) (folder1 folder2 : String) (count : Nat)
    (m : Int) (results : ResultMap)
    (h : compareFilesInFolders fs DiffMain folder1 folder2 count = (m, some results, none)) :
    (∀ i, 1 ≤ i → i ≤ count → bothReadable fs folder1 folder2 i = true)
      ∧ m = (((List.range' 1 count).countP
              (fun i => (entryOf fs DiffMain folder1 folder2 i).2.matched) : Nat) : Int)
      ∧ results = (List.range' 1 count).map (entryOf fs DiffMain folder1 folder2) := by
  rcases compareFilesInFolders_cases fs DiffMain folder1 folder2 count with
    ⟨hall, heq⟩ | ⟨N, _, _, _, _, heq⟩
  · rw [heq] at h
    simp only [Prod.mk.injEq, Option.some.injEq, and_true] at h
    exact ⟨hall, h.1.symm, h.2.symm⟩
  · rw [heq] at h
    simp at h

theorem isMatch_iff (diffs : List Diff) :
    isMatch diffs = true ↔ ∃ t, diffs = [{ Type_ := Operation.DiffEqual, Text := t }] := by
  constructor
  · intro h
    match diffs, h with
    | [], h => simp [isMatch] at h
    | [d], h =>
      obtain ⟨op, t⟩ := d
      simp [isMatch] at h
      exact ⟨t, by rw [h]⟩
    | _ :: _ :: _, h => simp [isMatch] at h
  · rintro ⟨t, rfl⟩
    simp [isMatch]

/-- C1: after a successful run, the result stored for each identifier `N` in
`1..count` holds in `diffs` exactly the segment sequence the diff routine
returned for the two texts read, and its `matched` flag is true if and only
if that sequence is one single segment tagged Equal; a sequence with no
segment, with two or more segments, or with an Insert or Delete segment is
stored with `matched = false`. -/
theorem compareFilesInFolders_verdict (fs : String → Option String)
    (DiffMain : String → String → List Diff) (folder1 folder2 : String) (count : Nat)
    (m : Int) (results : ResultMap)
    (h : compareFilesInFolders fs DiffMain folder1 folder2 count = (m, some results, none))
    (N : Nat) (h1 : 1 ≤ N) (h2 : N ≤ count) :
    ∃ text1 text2 r,
      fs (filePath folder1 N) = some text1 ∧ fs (filePath folder2 N) = some text2
      ∧ mapGet results (dataFileName N) = some r
      ∧ r.diffs = DiffMain text1 text2
      ∧ r.formattedOutput = generateFormattedOutput (DiffMain text1 text2)
      ∧ (r.matched = true ↔
          ∃ t, DiffMain text1 text2 = [{ Type_ := Operation.DiffEqual, Text := t }])
      ∧ (DiffMain text1 text2 = [] → r.matched = false)
      ∧ (2 ≤ (DiffMain text1 text2).length → r.matched = false)
      ∧ ((∃ d ∈ DiffMain text1 text2, d.Type_ ≠ Operation.DiffEqual) → r.matched = false) := by
  obtain ⟨hall, -, hres⟩ :=
    compareFilesInFolders_success fs DiffMain folder1 folder2 count m results h
  have hr := hall N h1 h2
  simp only [bothReadable, Bool.and_eq_true, Option.isSome_iff_exists] at hr
  obtain ⟨⟨text1, ht1⟩, ⟨text2, ht2⟩⟩ := hr
  have hget : mapGet results (dataFileName N) = some (mkResult (DiffMain text1 text2)) := by
    have := mapGet_map (entryOf fs DiffMain folder1 folder2) (List.range' 1 count)
      (entryOf_fst_injective fs DiffMain folder1 folder2) N
      (by rw [List.mem_range']; exact ⟨N - 1, by omega, by omega⟩)
    rw [← hres] at this
    simpa [entryOf, ht1, ht2] using this
  refine ⟨text1, text2, mkResult (DiffMain text1 text2), ht1, ht2, hget, rfl, rfl,
    isMatch_iff _, ?_, ?_, ?_⟩
  · intro h0
    simp [mkResult, h0, isMatch]
  · intro hlen
    cases hm : (mkResult (DiffMain text1 text2)).matched with
    | false => rfl
    | true =>
      obtain ⟨t, ht⟩ := (isMatch_iff _).mp hm
      rw [ht] at hlen
      simp at hlen
  · rintro ⟨d, hd, hne⟩
    cases hm : (mkResult (DiffMain text1 text2)).matched with
    | false => rfl
    | true =>
      obtain ⟨t, ht⟩ := (isMatch_iff _).mp hm
      rw [ht, List.mem_singleton] at hd
      rw [hd] at hne
      exact absurd rfl hne


/-- Witness for C1: scenario 2, the pair numbered 2. -/
theorem compareFilesInFolders_verdict_witness :
    compareFilesInFolders scenario2 sampleDiff "./LastRef" "./OutputData" (3 : Nat)
      = (2, some scenario2Results, none)
    ∧ ∃ text1 text2 r,
      scenario2 (filePath "./LastRef" 2) = some text1
      ∧ scenario2 (filePath "./OutputData" 2) = some text2
      ∧ mapGet scenario2Results (dataFileName (2 : Nat)) = some r
      ∧ r.diffs = sampleDiff text1 text2
      ∧ r.formattedOutput = generateFormattedOutput (sampleDiff text1 text2)
      ∧ (r.matched = true ↔
          ∃ t, sampleDiff text1 text2 = [{ Type_ := Operation.DiffEqual, Text := t }])
      ∧ (sampleDiff text1 text2 = [] → r.matched = false)
      ∧ (2 ≤ (sampleDiff text1 text2).length → r.matched = false)
      ∧ ((∃ d ∈ sampleDiff text1 text2, d.Type_ ≠ Operation.DiffEqual) → r.matched = false) :=
  ⟨by decide,
    compareFilesInFolders_verdict scenario2 sampleDiff "./LastRef" "./OutputData" 3 2
      scenario2Results (by decide) 2 (by decide) (by decide)⟩

/-- C2, the failing input: when the diff routine returns no segment for two
empty texts, a run over one pair of empty files stores the pair with
`matched = false`, returns the matched count 0 of 1, and `showIncorrectFiles`
lists identifier 1 as incorrect. -/
theorem empty_pair_reported_different (DiffMain : String → String → List Diff)
    (hD : DiffMain "" "" = []) :
    compareFilesInFolders emptyPair DiffMain "./LastRef" "./OutputData" 1
      = (0,
          some [("data1.out",
            { matched := false, diffs := [],
              formattedOutput := { reference := [""], output := [""] } })],
          none)
    ∧ incorrectFiles [("data1.out",
            { matched := false, diffs := [],
              formattedOutput := { reference := [""], output := [""] } })] = [1] := by
  refine ⟨?_, by decide⟩
  have h1 : emptyPair ("./LastRef" ++ "/" ++ "data1.out") = some "" := by decide
  have h2 : emptyPair ("./OutputData" ++ "/" ++ "data1.out") = some "" := by decide
  have hn : dataFileName ((1 : Nat) : Int) = "data1.out" := by decide
  have hr : List.range' 1 (1 : Int).toNat = [1] := by decide
  have hm : isMatch [] = false := by decide
  have hg : generateFormattedOutput []
      = { reference := [""], output := [""] } := by decide
  unfold compareFilesInFolders
  rw [hr]
  simp only [compareLoop, readFile, hn, h1, h2, hD, hm, hg]
  rfl

/-- Witness for C2's failing input, with the stand-in diff routine. -/
theorem empty_pair_reported_different_witness :
    sampleDiff "" "" = []
    ∧ compareFilesInFolders emptyPair sampleDiff "./LastRef" "./OutputData" 1
      = (0,
          some [("data1.out",
            { matched := false, diffs := [],
              formattedOutput := { reference := [""], output := [""] } })],
          none) :=
  ⟨by decide, (empty_pair_reported_different sampleDiff (by decide)).1⟩

/-- C3: for a segment sequence that satisfies the reconstruction invariant for
the texts `a` and `b`, the verdict of `compareFilesInFolders` is false when
`a` and `b` differ; equivalently, a true verdict implies `a = b`. -/
theorem isMatch_sound (diffs : List Diff) (a b : String) (h : Reconstructs diffs a b) :
    (a ≠ b → (mkResult diffs).matched = false)
    ∧ ((mkResult diffs).matched = true → a = b) := by
  have key : isMatch diffs = true → a = b := by
    intro hm
    obtain ⟨t, ht⟩ := (isMatch_iff diffs).mp hm
    obtain ⟨h1, h2⟩ := h
    rw [ht] at h1 h2
    simp [DiffText1] at h1
    simp [DiffText2] at h2
    rw [← h1, ← h2]
  refine ⟨?_, key⟩
  intro hne
  cases hm : (mkResult diffs).matched with
  | false => rfl
  | true => exact absurd (key hm) hne

/-- Witness for C3: `abc` against `abd`. -/
theorem isMatch_sound_witness :
    Reconstructs (sampleDiff "abc" "abd") "abc" "abd"
    ∧ ("abc" ≠ "abd" → (mkResult (sampleDiff "abc" "abd")).matched = false)
    ∧ ((mkResult (sampleDiff "abc" "abd")).matched = true → "abc" = "abd") :=
  ⟨⟨by decide, by decide⟩,
    isMatch_sound (sampleDiff "abc" "abd") "abc" "abd" ⟨by decide, by decide⟩⟩

/-- C8: `compareFilesInFolders` returns an error if and only if one of the
files `data<N>.out`, `N` in `1..count`, is unreadable in the reference or the
candidate folder. In that case the matched count returned is 0, the mapping
returned is nil, and the error is that of the first unreadable file, going
through `N = 1..count` with the reference file before the candidate file. -/
theorem compareFilesInFolders_fail_fast (fs : String → Option String)
    (DiffMain : String → String → List Diff) (folder1 folder2 : String) (count : Nat) :
    ((compareFilesInFolders fs DiffMain folder1 folder2 count).2.2 ≠ none
      ↔ ∃ N, 1 ≤ N ∧ N ≤ count
          ∧ (fs (filePath folder1 N) = none ∨ fs (filePath folder2 N) = none))
    ∧ ((compareFilesInFolders fs DiffMain folder1 folder2 count).2.2 ≠ none →
        ∃ N, 1 ≤ N ∧ N ≤ count
          ∧ (∀ M, 1 ≤ M → M < N →
              fs (filePath folder1 M) ≠ none ∧ fs (filePath folder2 M) ≠ none)
          ∧ (fs (filePath folder1 N) = none ∨ fs (filePath folder2 N) = none)
          ∧ compareFilesInFolders fs DiffMain folder1 folder2 count
            = (0, none,
                some (if fs (filePath folder1 N) = none then
                    ReadError.wrap "error reading file1: "
                      (ReadError.wrap "failed reading file: "
                        (ReadError.unreadable (filePath folder1 N)))
                  else
                    ReadError.wrap "error reading file2: "
                      (ReadError.wrap "failed reading file: "
                        (ReadError.unreadable (filePath folder2 N)))))) := by
  have hread : ∀ i, bothReadable fs folder1 folder2 i = true
      ↔ fs (filePath folder1 i) ≠ none ∧ fs (filePath folder2 i) ≠ none := by
    intro i
    simp [bothReadable, Option.isSome_iff_ne_none]
  rcases compareFilesInFolders_cases fs DiffMain folder1 folder2 count with
    ⟨hall, heq⟩ | ⟨N, hN1, hN2, hpre, hbad, heq⟩
  · have hno : ¬ ∃ N, 1 ≤ N ∧ N ≤ count
        ∧ (fs (filePath folder1 N) = none ∨ fs (filePath folder2 N) = none) := by
      rintro ⟨N, h1, h2, h3⟩
      have := (hread N).mp (hall N h1 h2)
      rcases h3 with h3 | h3
      · exact this.1 h3
      · exact this.2 h3
    rw [heq]
    exact ⟨⟨fun h => absurd rfl h, fun h => absurd h hno⟩, fun h => absurd rfl h⟩
  · have hN : fs (filePath folder1 N) = none ∨ fs (filePath folder2 N) = none := by
      by_contra hcon
      rw [not_or] at hcon
      have := (hread N).mpr hcon
      rw [hbad] at this
      exact Bool.false_ne_true this
    have hex : ∃ N, 1 ≤ N ∧ N ≤ count
        ∧ (∀ M, 1 ≤ M → M < N →
            fs (filePath folder1 M) ≠ none ∧ fs (filePath folder2 M) ≠ none)
        ∧ (fs (filePath folder1 N) = none ∨ fs (filePath folder2 N) = none)
        ∧ compareFilesInFolders fs DiffMain folder1 folder2 count
          = (0, none,
              some (if fs (filePath folder1 N) = none then
                  ReadError.wrap "error reading file1: "
                    (ReadError.wrap "failed reading file: "
                      (ReadError.unreadable (filePath folder1 N)))
                else
                  ReadError.wrap "error reading file2: "
                    (ReadError.wrap "failed reading file: "
                      (ReadError.unreadable (filePath folder2 N))))) :=
      ⟨N, hN1, hN2, fun M h1 h2 => (hread M).mp (hpre M h1 h2), hN, heq⟩
    refine ⟨⟨fun _ => ⟨N, hN1, hN2, hN⟩, fun _ => ?_⟩, fun _ => hex⟩
    rw [heq]
    simp

/-- Witness for C8, scenario 3: with `count = 3` and the candidate folder
lacking `data2.out` the run fails on the candidate file of pair 2, although
pair 1 was read and compared. -/
theorem compareFilesInFolders_fail_fast_witness :
    compareFilesInFolders scenario3 sampleDiff "./LastRef" "./OutputData" (3 : Nat)
      = (0, none,
          some (ReadError.wrap "error reading file2: "
            (ReadError.wrap "failed reading file: "
              (ReadError.unreadable "./OutputData/data2.out"))))
    ∧ ((compareFilesInFolders scenario3 sampleDiff "./LastRef" "./OutputData"
          (3 : Nat)).2.2 ≠ none
      ↔ ∃ N, 1 ≤ N ∧ N ≤ 3
          ∧ (scenario3 (filePath "./LastRef" N) = none
            ∨ scenario3 (filePath "./OutputData" N) = none)) :=
  ⟨by decide,
    (compareFilesInFolders_fail_fast scenario3 sampleDiff "./LastRef" "./OutputData" 3).1⟩


/-! ## The list of incorrect files -/

theorem foldl_incorrectStep (iter : List (String × FileCompareResult)) (acc : List Int)
    (b : Bool) :
    (iter.foldl incorrectStep (acc, b)).1
      = acc ++ (iter.filter (fun e => !e.2.matched)).map (fun e => sscanfDataOut e.1 0) := by
  induction iter generalizing acc b with
  | nil => simp
  | cons e iter ih =>
    rw [List.foldl_cons]
    by_cases hm : e.2.matched = true
    · simp [incorrectStep, hm, ih]
    · simp [incorrectStep, hm, ih]

theorem incorrectFiles_eq (iter : List (String × FileCompareResult)) :
    incorrectFiles iter
      = sortInts ((iter.filter (fun e => !e.2.matched)).map (fun e => sscanfDataOut e.1 0)) := by
  simp [incorrectFiles, foldl_incorrectStep]

theorem sortInts_perm (l₁ l₂ : List Int) (h : l₁.Perm l₂) : sortInts l₁ = sortInts l₂ := by
  unfold sortInts
  apply List.eq_of_perm_of_sorted (r := fun a b : Int => a ≤ b)
  · exact ((List.perm_insertionSort _ l₁).trans h).trans (List.perm_insertionSort _ l₂).symm
  · exact List.sorted_insertionSort _ l₁
  · exact List.sorted_insertionSort _ l₂

theorem incorrectFiles_perm (iter results : List (String × FileCompareResult))
    (h : iter.Perm results) : incorrectFiles iter = incorrectFiles results := by
  rw [incorrectFiles_eq, incorrectFiles_eq]
  exact sortInts_perm _ _ ((h.filter _).map _)

theorem incorrectFiles_run (fs : String → Option String)
    (DiffMain : String → String → List Diff) (folder1 folder2 : String) (count : Nat)
    (hc : (count : Int) < 2 ^ 63) :
    incorrectFiles ((List.range' 1 count).map (entryOf fs DiffMain folder1 folder2))
      = ((List.range' 1 count).filter
          (fun i => !(entryOf fs DiffMain folder1 folder2 i).2.matched)).map
            (fun i : Nat => (i : Int))
    ∧ List.Sorted (fun a b : Int => a < b)
        (((List.range' 1 count).filter
          (fun i => !(entryOf fs DiffMain folder1 folder2 i).2.matched)).map
            (fun i : Nat => (i : Int))) := by
  have hsorted : List.Sorted (fun a b : Int => a < b)
      (((List.range' 1 count).filter
        (fun i => !(entryOf fs DiffMain folder1 folder2 i).2.matched)).map
          (fun i : Nat => (i : Int))) := by
    apply List.Pairwise.map (R := fun a b : Nat => a < b)
    · intro a b hab
      exact Int.ofNat_lt.mpr hab
    · exact List.Pairwise.filter _ (List.pairwise_lt_range' 1 count)
  refine ⟨?_, hsorted⟩
  rw [incorrectFiles_eq, List.filter_map, List.map_map]
  have hmap : List.map ((fun e => sscanfDataOut e.1 0) ∘ entryOf fs DiffMain folder1 folder2)
      (List.filter ((fun e => !e.2.matched) ∘ entryOf fs DiffMain folder1 folder2)
        (List.range' 1 count))
      = ((List.range' 1 count).filter
          (fun i => !(entryOf fs DiffMain folder1 folder2 i).2.matched)).map
            (fun i : Nat => (i : Int)) := by
    apply List.map_congr_left
    intro i hi
    have hi' := (List.mem_filter.mp hi).1
    rw [List.mem_range'] at hi'
    obtain ⟨k, hk, rfl⟩ := hi'
    have hlt : (((1 + 1 * k : Nat)) : Int) < 2 ^ 63 := by
      have : (((1 + 1 * k : Nat)) : Int) ≤ (count : Int) := by
        exact Int.ofNat_le.mpr (by omega)
      omega
    exact sscanfDataOut_dataFileName _ hlt 0
  rw [hmap]
  unfold sortInts
  exact List.Sorted.insertionSort_eq (hsorted.imp (fun h => le_of_lt h))

/-- C6: after a successful run over identifiers `1..count`, the list of
unmatched identifiers that `showIncorrectFiles` builds and sorts is strictly
ascending, holds exactly the identifiers `N` in `1..count` whose stored result
has `matched = false`, and is the same for every order in which the mapping is
ranged over. -/
theorem incorrectFiles_ascending_exact (fs : String → Option String)
    (DiffMain : String → String → List Diff) (folder1 folder2 : String) (count : Nat)
    (hc : (count : Int) < 2 ^ 63) (m : Int) (results : ResultMap)
    (h : compareFilesInFolders fs DiffMain folder1 folder2 count = (m, some results, none))
    (iter : List (String × FileCompareResult)) (hp : iter.Perm results) :
    List.Sorted (fun a b : Int => a < b) (incorrectFiles iter)
    ∧ (∀ N : Int, N ∈ incorrectFiles iter ↔
        ∃ n : Nat, N = (n : Int) ∧ 1 ≤ n ∧ n ≤ count
          ∧ ∃ r, mapGet results (dataFileName n) = some r ∧ r.matched = false)
    ∧ incorrectFiles iter = incorrectFiles results := by
  obtain ⟨-, -, hres⟩ :=
    compareFilesInFolders_success fs DiffMain folder1 folder2 count m results h
  obtain ⟨heq, hsorted⟩ := incorrectFiles_run fs DiffMain folder1 folder2 count hc
  have hit : incorrectFiles iter = incorrectFiles results := incorrectFiles_perm iter results hp
  have hget : ∀ n, 1 ≤ n → n ≤ count →
      mapGet results (dataFileName n) = some (entryOf fs DiffMain folder1 folder2 n).2 := by
    intro n h1 h2
    have := mapGet_map (entryOf fs DiffMain folder1 folder2) (List.range' 1 count)
      (entryOf_fst_injective fs DiffMain folder1 folder2) n
      (by rw [List.mem_range']; exact ⟨n - 1, by omega, by omega⟩)
    rw [← hres] at this
    exact this
  refine ⟨?_, ?_, hit⟩
  · rw [hit, hres, heq]
    exact hsorted
  · intro N
    rw [hit, hres, heq, ← hres]
    simp only [List.mem_map, List.mem_filter, List.mem_range']
    constructor
    · rintro ⟨n, ⟨⟨k, hk, rfl⟩, hm⟩, rfl⟩
      refine ⟨1 + 1 * k, rfl, by omega, by omega, _, hget _ (by omega) (by omega), ?_⟩
      simpa using hm
    · rintro ⟨n, rfl, h1, h2, r, hr, hm⟩
      rw [hget n h1 h2] at hr
      have hr' := Option.some.inj hr
      refine ⟨n, ⟨⟨n - 1, by omega, by omega⟩, ?_⟩, rfl⟩
      rw [hr', hm]
      rfl

/-- Witness for C6: scenario 2, with the mapping ranged over in reverse. -/
theorem incorrectFiles_ascending_exact_witness :
    incorrectFiles scenario2Results.reverse = [2]
    ∧ List.Sorted (fun a b : Int => a < b) (incorrectFiles scenario2Results.reverse)
    ∧ (∀ N : Int, N ∈ incorrectFiles scenario2Results.reverse ↔
        ∃ n : Nat, N = (n : Int) ∧ 1 ≤ n ∧ n ≤ 3
          ∧ ∃ r, mapGet scenario2Results (dataFileName n) = some r ∧ r.matched = false)
    ∧ incorrectFiles scenario2Results.reverse = incorrectFiles scenario2Results :=
  ⟨by decide,
    incorrectFiles_ascending_exact scenario2 sampleDiff "./LastRef" "./OutputData" 3
      (by decide) 2 scenario2Results (by decide) scenario2Results.reverse
      (List.reverse_perm scenario2Results)⟩


/-! ## The summary of a run -/

theorem mapGet_ne_none_iff (m : ResultMap) (k : String) :
    mapGet m k ≠ none ↔ k ∈ m.map Prod.fst := by
  induction m with
  | nil => simp [mapGet]
  | cons e m ih =>
    obtain ⟨k', v'⟩ := e
    unfold mapGet
    by_cases hk : k' = k
    · simp [hk]
    · simp only [hk, if_false, List.map_cons, List.mem_cons]
      rw [ih]
      constructor
      · exact fun h => Or.inr h
      · rintro (h | h)
        · exact absurd h.symm hk
        · exact h

theorem sortInts_eq_nil (l : List Int) : sortInts l = [] ↔ l = [] := by
  unfold sortInts
  constructor
  · intro h
    have hp := List.perm_insertionSort (fun a b : Int => a ≤ b) l
    rw [h] at hp
    exact List.perm_nil.mp hp.symm
  · rintro rfl
    rfl

theorem incorrectFiles_eq_nil (iter : List (String × FileCompareResult)) :
    incorrectFiles iter = [] ↔ iter.countP (fun e => e.2.matched) = iter.length := by
  rw [incorrectFiles_eq, sortInts_eq_nil, List.map_eq_nil_iff, List.filter_eq_nil_iff,
    List.countP_eq_length]
  constructor
  · intro h e he
    simpa using h e he
  · intro h e he
    simpa using h e he

/-- C7: a successful run over `count` pairs returns a mapping with exactly one
entry per identifier `N` in `1..count`, keyed `data<N>.out` (`count` distinct
keys and no other key), and a matched count equal to the number of entries
whose `matched` flag is true; hence the matched count lies between 0 and
`count`, and equals `count` exactly when the list of unmatched identifiers is
empty, whatever the order the mapping is ranged over. -/
theorem compareFilesInFolders_summary (fs : String → Option String)
    (DiffMain : String → String → List Diff) (folder1 folder2 : String) (count : Nat)
    (m : Int) (results : ResultMap)
    (h : compareFilesInFolders fs DiffMain folder1 folder2 count = (m, some results, none)) :
    results.map Prod.fst = (List.range' 1 count).map (fun i : Nat => dataFileName (i : Int))
    ∧ (results.map Prod.fst).Nodup
    ∧ results.length = count
    ∧ (∀ k, mapGet results k ≠ none ↔
        ∃ N : Nat, 1 ≤ N ∧ N ≤ count ∧ k = dataFileName (N : Int))
    ∧ m = ((results.countP (fun e => e.2.matched) : Nat) : Int)
    ∧ 0 ≤ m ∧ m ≤ (count : Int)
    ∧ (∀ iter : List (String × FileCompareResult), iter.Perm results →
        (m = (count : Int) ↔ incorrectFiles iter = [])) := by
  obtain ⟨-, hm, hres⟩ :=
    compareFilesInFolders_success fs DiffMain folder1 folder2 count m results h
  have hkeys : results.map Prod.fst
      = (List.range' 1 count).map (fun i : Nat => dataFileName (i : Int)) := by
    rw [hres, List.map_map]
    rfl
  have hlen : results.length = count := by
    rw [hres]
    simp
  have hcount : m = ((results.countP (fun e => e.2.matched) : Nat) : Int) := by
    rw [hm, hres, List.countP_map]
    rfl
  have hle : results.countP (fun e => e.2.matched) ≤ count := by
    rw [← hlen]
    exact List.countP_le_length _
  refine ⟨hkeys, ?_, hlen, ?_, hcount, ?_, ?_, ?_⟩
  · rw [hkeys]
    exact List.Nodup.map (fun a b hab => dataFileName_injective a b hab)
      (List.nodup_range' 1 count)
  · intro k
    rw [mapGet_ne_none_iff, hkeys]
    simp only [List.mem_map, List.mem_range']
    constructor
    · rintro ⟨N, ⟨i, hi, rfl⟩, rfl⟩
      exact ⟨1 + 1 * i, by omega, by omega, rfl⟩
    · rintro ⟨N, h1, h2, rfl⟩
      exact ⟨N, ⟨N - 1, by omega, by omega⟩, rfl⟩
  · rw [hcount]
    exact Int.ofNat_nonneg _
  · rw [hcount]
    exact Int.ofNat_le.mpr hle
  · intro iter hp
    rw [incorrectFiles_perm iter results hp, incorrectFiles_eq_nil, hcount, hlen]
    exact Int.ofNat_inj

/-- Witness for C7: in scenario 1 (three identical pairs) the run reports 3 of
3 and no unmatched identifier; in scenario 2 (pair 2 is `abc` against `abd`)
it reports 2 of 3 and the unmatched list `[2]`. -/
theorem compareFilesInFolders_summary_witness :
    ((compareFilesInFolders scenario1 sampleDiff "./LastRef" "./OutputData" (3 : Nat)).1 = 3
      ∧ (compareFilesInFolders scenario1 sampleDiff "./LastRef" "./OutputData"
          (3 : Nat)).2.1.map incorrectFiles = some [])
    ∧ (compareFilesInFolders scenario2 sampleDiff "./LastRef" "./OutputData" (3 : Nat)
        = (2, some scenario2Results, none)
      ∧ incorrectFiles scenario2Results = [2])
    ∧ (scenario2Results.map Prod.fst
        = (List.range' 1 3).map (fun i : Nat => dataFileName (i : Int))
      ∧ (scenario2Results.map Prod.fst).Nodup
      ∧ scenario2Results.length = 3
      ∧ (∀ k, mapGet scenario2Results k ≠ none ↔
          ∃ N : Nat, 1 ≤ N ∧ N ≤ 3 ∧ k = dataFileName (N : Int))
      ∧ (2 : Int) = ((scenario2Results.countP (fun e => e.2.matched) : Nat) : Int)
      ∧ 0 ≤ (2 : Int) ∧ (2 : Int) ≤ ((3 : Nat) : Int)
      ∧ (∀ iter : List (String × FileCompareResult), iter.Perm scenario2Results →
          ((2 : Int) = ((3 : Nat) : Int) ↔ incorrectFiles iter = []))) :=
  ⟨⟨by decide, by decide⟩, ⟨by decide, by decide⟩,
    compareFilesInFolders_summary scenario2 sampleDiff "./LastRef" "./OutputData" 3 2
      scenario2Results (by decide)⟩


/-! ## The interactive loop -/

/-- Counterexample to C10: the loop also ends when the answer to the continue
prompt is not an explicit negative one. When `fmt.Scanln` leaves `yes` in
`response`, when it leaves the empty string (a blank line), and when no answer
is left at all (end of input), the iteration clears the loop flag. -/
theorem loop_ends_without_explicit_no :
    (loopBody scriptString scriptInt 3 scenario2Results
        { continueViewing := true, input := { responses := ["yes"], numbers := [2, 1] },
          output := "" }).continueViewing = false
    ∧ (loopBody scriptString scriptInt 3 scenario2Results
        { continueViewing := true, input := { responses := [""], numbers := [] },
          output := "" }).continueViewing = false
    ∧ (loopBody scriptString scriptInt 3 scenario2Results
        { continueViewing := true, input := { responses := [], numbers := [] },
          output := "" }).continueViewing = false := by
  decide

/-- C10 as amended: one iteration of the interactive loop, on the state made
of the loop flag, standard input and the output, for every behaviour of
`fmt.Scanln`. An answer other than `y` or `Y` to the continue prompt clears
the loop flag, and nothing else does. After `y` or `Y`, a file number outside
`[1, numFiles]` prints the prompts and the invalid-number message only and
keeps the flag; a file number in range with a display type other than 1 or 2
prints the prompts and the invalid-type message only and keeps the flag; with
a file number in range and a display type 1 or 2 the flag is kept and the
output of `showDifferences` is printed when the mapping has an entry for
`data<id>.out`, and nothing beyond the prompts when it has none. -/
theorem loopBody_step {σ : Type} (scanlnString : σ → String × σ)
    (scanlnInt : σ → Int × σ) (numFiles : Int) (results : ResultMap) (s : Session σ) :
    ((loopBody scanlnString scanlnInt numFiles results s).continueViewing = false
      ↔ s.continueViewing = false
        ∨ (response scanlnString s ≠ "y" ∧ response scanlnString s ≠ "Y"))
    ∧ ((response scanlnString s ≠ "y" ∧ response scanlnString s ≠ "Y") →
        loopBody scanlnString scanlnInt numFiles results s
          = { continueViewing := false, input := (inputAfter scanlnString scanlnInt s).1,
              output := s.output ++ promptContinue })
    ∧ ((response scanlnString s = "y" ∨ response scanlnString s = "Y") →
        (fileNum scanlnString scanlnInt s < 1 ∨ fileNum scanlnString scanlnInt s > numFiles) →
        loopBody scanlnString scanlnInt numFiles results s
          = { continueViewing := s.continueViewing,
              input := (inputAfter scanlnString scanlnInt s).2.1,
              output := s.output ++ promptContinue ++ promptFileNum
                ++ ("Invalid file number. Please enter a number between 1 and "
                  ++ fmtInt numFiles ++ "\n") })
    ∧ ((response scanlnString s = "y" ∨ response scanlnString s = "Y") →
        (1 ≤ fileNum scanlnString scanlnInt s ∧ fileNum scanlnString scanlnInt s ≤ numFiles) →
        (displayType scanlnString scanlnInt s ≠ 1 ∧ displayType scanlnString scanlnInt s ≠ 2) →
        loopBody scanlnString scanlnInt numFiles results s
          = { continueViewing := s.continueViewing,
              input := (inputAfter scanlnString scanlnInt s).2.2,
              output := s.output ++ promptContinue ++ promptFileNum ++ promptDisplayType
                ++ "Invalid display type\n" })
    ∧ ((response scanlnString s = "y" ∨ response scanlnString s = "Y") →
        (1 ≤ fileNum scanlnString scanlnInt s ∧ fileNum scanlnString scanlnInt s ≤ numFiles) →
        (displayType scanlnString scanlnInt s = 1 ∨ displayType scanlnString scanlnInt s = 2) →
        loopBody scanlnString scanlnInt numFiles results s
          = { continueViewing := s.continueViewing,
              input := (inputAfter scanlnString scanlnInt s).2.2,
              output := s.output ++ promptContinue ++ promptFileNum ++ promptDisplayType
                ++ (match mapGet results (dataFileName (fileNum scanlnString scanlnInt s)) with
                    | some result =>
                      showDifferences (dataFileName (fileNum scanlnString scanlnInt s)) result
                        (displayType scanlnString scanlnInt s)
                    | none => "") }) := by
  have hyn : (response scanlnString s = "y" ∨ response scanlnString s = "Y") →
      ¬ ((scanlnString s.input).1 ≠ "y" ∧ (scanlnString s.input).1 ≠ "Y") := by
    intro hy hc
    rcases hy with h | h
    · exact hc.1 h
    · exact hc.2 h
  have hrange : (1 ≤ fileNum scanlnString scanlnInt s
        ∧ fileNum scanlnString scanlnInt s ≤ numFiles) →
      ¬ ((scanlnInt (scanlnString s.input).2).1 < 1
        ∨ (scanlnInt (scanlnString s.input).2).1 > numFiles) := by
    intro hok
    have h1 : 1 ≤ (scanlnInt (scanlnString s.input).2).1 := hok.1
    have h2 : (scanlnInt (scanlnString s.input).2).1 ≤ numFiles := hok.2
    omega
  have hno : (response scanlnString s ≠ "y" ∧ response scanlnString s ≠ "Y") →
      loopBody scanlnString scanlnInt numFiles results s
        = { continueViewing := false, input := (inputAfter scanlnString scanlnInt s).1,
            output := s.output ++ promptContinue } := by
    intro h
    have h' : (scanlnString s.input).1 ≠ "y" ∧ (scanlnString s.input).1 ≠ "Y" := h
    simp only [loopBody, if_pos h']
    rfl
  have hyes_flag : (response scanlnString s = "y" ∨ response scanlnString s = "Y") →
      (loopBody scanlnString scanlnInt numFiles results s).continueViewing
        = s.continueViewing := by
    intro h
    simp only [loopBody, if_neg (hyn h)]
    split
    · rfl
    · split
      · rfl
      · split <;> rfl
  refine ⟨?_, hno, ?_, ?_, ?_⟩
  · by_cases h : response scanlnString s ≠ "y" ∧ response scanlnString s ≠ "Y"
    · rw [hno h]
      simp [h]
    · have hy : response scanlnString s = "y" ∨ response scanlnString s = "Y" := by
        by_contra hc
        rw [not_or] at hc
        exact h hc
      rw [hyes_flag hy]
      simp [h]
  · intro hy hbad
    have hbad' : (scanlnInt (scanlnString s.input).2).1 < 1
        ∨ (scanlnInt (scanlnString s.input).2).1 > numFiles := hbad
    simp only [loopBody, if_neg (hyn hy), if_pos hbad']
    simp [inputAfter, promptContinue, promptFileNum, String.append_assoc]
  · intro hy hok hbad
    have hbad' : (scanlnInt (scanlnInt (scanlnString s.input).2).2).1 ≠ 1
        ∧ (scanlnInt (scanlnInt (scanlnString s.input).2).2).1 ≠ 2 := hbad
    simp only [loopBody, if_neg (hyn hy), if_neg (hrange hok), if_pos hbad']
    simp [inputAfter, promptContinue, promptFileNum, promptDisplayType, String.append_assoc]
  · intro hy hok hgood
    have hgood' : ¬ ((scanlnInt (scanlnInt (scanlnString s.input).2).2).1 ≠ 1
        ∧ (scanlnInt (scanlnInt (scanlnString s.input).2).2).1 ≠ 2) := by
      intro hc
      rcases hgood with h | h
      · exact hc.1 h
      · exact hc.2 h
    simp only [loopBody, if_neg (hyn hy), if_neg (hrange hok), if_neg hgood']
    simp only [inputAfter, promptContinue, promptFileNum, promptDisplayType, fileNum,
      displayType]
    split <;> simp [String.append_assoc, *]

set_option maxRecDepth 8000

/-- Witness for C10 as amended, scenario 5: with three files, the identifiers
0 and 4 are reported as invalid and the loop keeps running; asked for pair 2
inline, the iteration prints its differences; the answer `n` ends the loop,
and the whole session `y 0`, `y 4`, `y 2 1`, `n` ends after four
iterations. -/
theorem loopBody_step_witness :
    loopBody scriptString scriptInt 3 scenario2Results
        { continueViewing := true, input := { responses := ["y", "n"], numbers := [0] },
          output := "" }
      = { continueViewing := true, input := { responses := ["n"], numbers := [] },
          output := promptContinue ++ promptFileNum
            ++ "Invalid file number. Please enter a number between 1 and 3\n" }
    ∧ loopBody scriptString scriptInt 3 scenario2Results
        { continueViewing := true, input := { responses := ["y", "n"], numbers := [4] },
          output := "" }
      = { continueViewing := true, input := { responses := ["n"], numbers := [] },
          output := promptContinue ++ promptFileNum
            ++ "Invalid file number. Please enter a number between 1 and 3\n" }
    ∧ loopBody scriptString scriptInt 3 scenario2Results
        { continueViewing := true, input := { responses := ["y", "n"], numbers := [2, 1] },
          output := "" }
      = { continueViewing := true, input := { responses := ["n"], numbers := [] },
          output := promptContinue ++ promptFileNum ++ promptDisplayType
            ++ "\x1b[31mFile data2.out: Files are different\x1b[0m\n"
            ++ "ab\x1b[31mc\x1b[0m\x1b[32md\x1b[0m\n" }
    ∧ (interactiveLoop scriptString scriptInt 3 scenario2Results 4
        { continueViewing := true,
          input := { responses := ["y", "y", "y", "n"], numbers := [0, 4, 2, 1] },
          output := "" }).continueViewing = false
    ∧ ((loopBody scriptString scriptInt 3 scenario2Results
          { continueViewing := true, input := { responses := ["n"], numbers := [] },
            output := "" }).continueViewing = false
        ↔ true = false
          ∨ (response scriptString
                { continueViewing := true, input := { responses := ["n"], numbers := [] },
                  output := "" } ≠ "y"
            ∧ response scriptString
                { continueViewing := true, input := { responses := ["n"], numbers := [] },
                  output := "" } ≠ "Y")) :=
  ⟨by decide, by decide, by decide, by decide,
    (loopBody_step scriptString scriptInt 3 scenario2Results
      { continueViewing := true, input := { responses := ["n"], numbers := [] },
        output := "" }).1⟩

end Checker
